import Mathlib

/-!
Verification development for the ucd (undocumented change detector) pipeline.

The definitions below are a shallow embedding of the Go sources:
the current pipeline (main.go, pkg/ucd/analyze.go and the collector file
pairing with them) lives in namespace `Ucd`; the earlier Collector/Service
iteration (pkg/ucd/changes.go, pkg/ucd/types.go and the formatter file)
lives in namespace `UcdV2`.  External processes (git, diff) and the
filesystem are modelled as explicit oracle parameters; Go's `len` on
strings is modelled as UTF-8 byte length.
-/

deriving instance DecidableEq for Except

namespace Ucd

/-- Byte length of a string, modelling Go's `len(s)` which counts UTF-8
bytes, not characters. -/
def byteLen (s : String) : Nat := (s.data.map Char.utf8Size).sum

/-- Lower-casing by character map (strings.ToLower for the ASCII text
handled here). -/
def strLower (s : String) : String := String.mk (s.data.map Char.toLower)

/-- AnalysisData contains collected code change information (collector file,
current iteration: fields Source, Diff, CommitMessages, Changelog, VersionA,
VersionB, ProgramName, ProgramDesc, all strings). -/
structure AnalysisData where
  Source         : String := ""
  Diff           : String := ""
  CommitMessages : String := ""
  Changelog      : String := ""
  VersionA       : String := ""
  VersionB       : String := ""
  ProgramName    : String := ""
  ProgramDesc    : String := ""
deriving DecidableEq, Repr

/-! Literal text segments of `promptTemplateStr` (analyze.go).  The Go
template is a fixed string with `{{.Field}}` substitutions and two
`{{with}}` conditionals; the segments between the actions are transcribed
verbatim below. -/

def chunkA : String := "\nYou are a security expert and malware analyst studying the changes between two versions of an\nopen-source program that you are not familiar with.\n\n"

def nameC1 : String := "The name of the program we are analyzing is \""

def nameC2 : String := "\", you may know about it already."

def descC1 : String := "The description of the program we are analyzing is: \""

def descC2 : String := "\""

def chunkB : String := "\n\nI will provide:\n\n1. A unified diff of changes between version "

def chunkC : String := " and "

def chunkD : String := " collected from "

def chunkE1 : String := "\n2. Commit messages describing changes (if available)\n3. Changelog entries (if available)\n\nYour task is to determine if there are behavior changes present in the unified diff that are not documented\nby either the commit messages or changelog.\n\n- Be loose in your interpretation of how a diff change\nmay be related to a commit message or changelog entry.\n- Don\x27t include undocumented code health improvements that often appear alongside feature changes.\n  * For example, don\x27t include documentation updates, changes that can come up in code refactoring, CI/CD configuration changes, or performance improvements.\n"

def chunkE2 : String := "- Ignore changes to files within the .github directory, as they will not impact the users of this tool.\n- Unless you know of a specific security threat for a package version, assume that dependency version bumps are not part of a silent security fix.\n- Be particularly on the lookout for possible supply-chain security attacks that would impact an open-source project. For exampel:\n  * The introduction of a silent network backdoor\n  * The addition of obfuscated or encoded text that does not match the surrounding code\n  * Execution of external commands, especially ones that fetch URLs or decode strings\n  * Cryptomining attacks\n  * Credential theft\n\nFormat your response as a JSON object with:\n\n"

def chunkE3 : String := "- \"undocumented_changes\": An array of JSON objects for each undocumented behavioral change that could impact a user of this program, each with:\n  - \"description\": A terse, concise, and technical 1-sentence description of the undocumented behavioral change\n  - \"malware_risk\": 0-10 danger scale of this undocumented change being malicious in nature. For example, could this undocumented change\n        represent the addition of code for credential exfiltration, a backdoor, or a data wiper? (0=Benign, 5=Suspicious, 10=Extremely Dangerous)\n  - \"malware_explanation\":  A terse, concise, and technical 1-sentence explanation for the given malware_risk rating.\n  - \"silent_patch\": 0-10 likelihood of this undocumented change representing a hidden critical security patch (0=Benign, 5=Suspicious, 10=Extremely Dangerous)\n  - \"silent_explanation\": Your explanation for your silent_patch rating.\n\n"

def chunkE4 : String := "- \"summary\": A JSON object that assesses the full combined impact of the undocumented behavioral changes you\x27ve found:\n  - \"description\": A terse, concise, and technical 1-sentence description of the combined undocumented behavioral changes.\n  - \"malware_risk\": 0-10 danger scale of all combined changes considered together (0=Benign, 5=Suspicious, 10=Extremely Dangerous)\n  - \"malware_explanation\": A terse, concise, and technical 1-sentence explanation for your combined malware risk rating.\n  - \"silent_patch\": 0-10 likelihood of a silent critical security patch introduced in this version change (0=Benign, 5=Suspicious, 10=Extremely Dangerous)\n  - \"silent_explanation\":  A terse, concise, and technical explanation for your combined silent_patch rating.\n\nDo not include changes mentioned in the Changelog or commit messages.\n\nIf there are no undocumented behavior changes, return an empty changes array. Your response must be in JSON form to be understood.\n\nHere are the details to analyze:\n\nUNIFIED DIFF:\n"

/-- The full instructional passage between the Source substitution and the
Diff substitution; kept in four segments so concrete byte counts stay
within kernel evaluation depth. -/
def chunkE : String := chunkE1 ++ chunkE2 ++ chunkE3 ++ chunkE4

def chunkF : String := "\n\nCOMMIT MESSAGES:\n"

def chunkG : String := "\n\nCHANGELOG CHANGES:\n"

def chunkH : String := "\nEnsure that the returned data is in valid JSON form.\n"

/-- Rendering of `promptTmpl.Execute` on an AnalysisData: the template's
literal segments with field substitutions; the two `{{with}}` blocks emit
their body exactly when the field is a non-empty string. -/
def renderPrompt (d : AnalysisData) : String :=
  chunkA ++
  (if d.ProgramName = "" then "" else nameC1 ++ d.ProgramName ++ nameC2) ++
  "\n" ++
  (if d.ProgramDesc = "" then "" else descC1 ++ d.ProgramDesc ++ descC2) ++
  chunkB ++ d.VersionA ++ chunkC ++ d.VersionB ++ chunkD ++ d.Source ++
  chunkE ++ d.Diff ++ chunkF ++ d.CommitMessages ++ chunkG ++ d.Changelog ++ chunkH

/-- buildPrompt (analyze.go): render the template, then reject (not
truncate) when the rendered prompt exceeds maxPromptLength = 2000000
bytes.  The Go error text interpolates the constant, not the actual
length: `too much data to analyze (%d length)` with maxPromptLength. -/
def buildPrompt (d : AnalysisData) : Except String String :=
  let prompt := renderPrompt d
  if byteLen prompt > 2000000 then
    .error "too much data to analyze (2000000 length)"
  else
    .ok prompt

/-- Sum of the byte sizes of all substituted inputs of the prompt template. -/
def inputSizes (d : AnalysisData) : Nat :=
  byteLen d.Diff + byteLen d.CommitMessages + byteLen d.Changelog +
  byteLen d.VersionA + byteLen d.VersionB + byteLen d.Source +
  byteLen d.ProgramName + byteLen d.ProgramDesc

/-- Combined byte size of the unconditionally rendered template segments. -/
def basePromptBytes : Nat :=
  byteLen chunkA + 1 + byteLen chunkB + byteLen chunkC + byteLen chunkD +
  byteLen chunkE1 + byteLen chunkE2 + byteLen chunkE3 + byteLen chunkE4 +
  byteLen chunkF + byteLen chunkG + byteLen chunkH

/-- Byte size of the fixed text surrounding a non-empty ProgramName. -/
def nameWrapBytes : Nat := byteLen nameC1 + byteLen nameC2

/-- Byte size of the fixed text surrounding a non-empty ProgramDesc. -/
def descWrapBytes : Nat := byteLen descC1 + byteLen descC2

/-! Model of extractJSON (analyze.go).  The Go code runs two regexes in
order: first the fenced code block pattern
  three backticks, optional "json", optional newline,
  a lazily matched brace or bracket group (dot does not cross newlines),
  optional newline, three backticks
returning the leftmost match with leftmost-first (backtracking)
submatch semantics; then the greedy `(?s)` object pattern, which spans
from the first open brace to the last close brace of the whole text.
The functions below implement exactly those semantics on the character
list of the response. -/

/-- Continuation test after the lazily matched group: the rest of the
response must begin with the closing fence, optionally preceded by one
newline. -/
def tailOk (cs : List Char) : Bool :=
  cs.take 3 = ['\x60', '\x60', '\x60'] ||
    (cs.head? = some '\n' && cs.tail.take 3 = ['\x60', '\x60', '\x60'])

/-- Lazy scan for the closing delimiter of the fenced group: the shortest
newline-free content followed by the close character at a position where
the closing fence follows.  A close character whose continuation does not
match stays part of the content; a newline aborts the group (the regex
dot does not match newlines). -/
def lazyScan (close : Char) : List Char → List Char → Option (List Char)
  | [], _ => none
  | c :: cs, acc =>
    if c = close && tailOk cs then some acc.reverse
    else if c = '\n' then none
    else lazyScan close cs (c :: acc)

/-- Group alternative of the fenced pattern: a brace group is preferred
over a bracket group (leftmost-first alternation). -/
def groupMatch (r : List Char) : Option (List Char) :=
  if r.head? = some '\x7b' then
    (lazyScan '\x7d' r.tail []).map (fun mid => '\x7b' :: (mid ++ ['\x7d']))
  else if r.head? = some '\x5b' then
    (lazyScan '\x5d' r.tail []).map (fun mid => '\x5b' :: (mid ++ ['\x5d']))
  else none

/-- Optional newline after the fence label, greedy (consumed first). -/
def nlBody (r : List Char) : Option (List Char) :=
  if r.head? = some '\n' then (groupMatch r.tail).orElse (fun _ => groupMatch r)
  else groupMatch r

/-- Optional "json" label after the opening fence, greedy. -/
def fenceBody (rest : List Char) : Option (List Char) :=
  if rest.take 4 = ['j', 's', 'o', 'n'] then
    (nlBody (rest.drop 4)).orElse (fun _ => nlBody rest)
  else nlBody rest

/-- Attempt the fenced-block pattern at the current position. -/
def matchAt (l : List Char) : Option (List Char) :=
  if l.take 3 = ['\x60', '\x60', '\x60'] then fenceBody (l.drop 3) else none

/-- Leftmost search for the fenced-block pattern. -/
def scanFenced : List Char → Option (List Char)
  | [] => none
  | c :: cs => (matchAt (c :: cs)).orElse (fun _ => scanFenced cs)

/-- Suffix of the list after its first open brace, or none. -/
def afterOpen : List Char → Option (List Char)
  | [] => none
  | c :: cs => if c = '\x7b' then some cs else afterOpen cs

/-- On a reversed list: the part after the first close brace, i.e. the
reversed content strictly before the last close brace of the original. -/
def dropToCloseRev : List Char → Option (List Char)
  | [] => none
  | c :: cs => if c = '\x7d' then some cs else dropToCloseRev cs

/-- Greedy `(?s)` object pattern: from the first open brace to the last
close brace of the text, if the close brace comes later. -/
def r2Extract (l : List Char) : Option (List Char) :=
  (afterOpen l).bind fun cs =>
    (dropToCloseRev cs.reverse).map fun rb => '\x7b' :: (rb.reverse ++ ['\x7d'])

/-- extractJSON on character lists: fenced block first, greedy object
pattern second. -/
def extractJSONL (l : List Char) : Option (List Char) :=
  (scanFenced l).orElse (fun _ => r2Extract l)

/-- extractJSON (analyze.go): returns the extracted payload, or the empty
string when neither pattern matches. -/
def extractJSON (s : String) : String :=
  match extractJSONL s.data with
  | some cap => String.mk cap
  | none => ""

/-! Model of Go's `encoding/json.Unmarshal` restricted to the shapes the
pipeline decodes (`Result`, `Assessment`, `AnalysisData`).  JSON values
are parsed into an explicit tree; numbers are restricted to integer
literals, which covers every number the 0-10 score fields may carry
(a fractional number is reported as a parse failure by this model).
Object keys are matched to struct fields case-insensitively and unknown
keys are ignored, as Go does; a value of the wrong type for a field is a
decode error; `null` leaves a field at its zero value. -/

inductive Jval where
  | jnull : Jval
  | jbool : Bool → Jval
  | jnum : Int → Jval
  | jstr : String → Jval
  | jarr : List Jval → Jval
  | jobj : List (String × Jval) → Jval
deriving Repr

/-- Skip JSON whitespace. -/
def skipWs : List Char → List Char
  | [] => []
  | c :: cs => if c = ' ' || c = '\t' || c = '\n' || c = '\r' then skipWs cs else c :: cs

/-- Parse the body of a string literal after the opening quote, handling
the standard escapes. -/
def parseStrBody : List Char → Except String (List Char × List Char)
  | [] => .error "unexpected end of JSON input in string"
  | c :: cs =>
    if c = '"' then .ok ([], cs)
    else if c = '\\' then
      match cs with
      | [] => .error "unexpected end of JSON input in escape"
      | e :: cs2 =>
        let esc : Except String Char :=
          if e = '"' then .ok '"'
          else if e = '\\' then .ok '\\'
          else if e = '/' then .ok '/'
          else if e = 'n' then .ok '\n'
          else if e = 't' then .ok '\t'
          else if e = 'r' then .ok '\r'
          else if e = 'b' then .ok '\x08'
          else if e = 'f' then .ok '\x0c'
          else .error "unsupported escape in string literal"
        match esc with
        | .error m => .error m
        | .ok ch =>
          match parseStrBody cs2 with
          | .error m => .error m
          | .ok (body, rest) => .ok (ch :: body, rest)
    else
      match parseStrBody cs with
      | .error m => .error m
      | .ok (body, rest) => .ok (c :: body, rest)

/-- Parse a run of decimal digits into a natural number. -/
def parseDigits : List Char → Nat → Option (Nat × List Char)
  | [], acc => some (acc, [])
  | c :: cs, acc =>
    if c.isDigit then parseDigits cs (acc * 10 + (c.toNat - 48))
    else some (acc, c :: cs)

/-- Parse an integer JSON number; fractional or exponent forms are outside
this model and reported as errors. -/
def parseNum (l : List Char) : Except String (Int × List Char) :=
  let (neg, l1) := match l with
    | '-' :: rest => (true, rest)
    | _ => (false, l)
  match l1 with
  | c :: _ =>
    if c.isDigit then
      match parseDigits l1 0 with
      | some (n, rest) =>
        match rest with
        | d :: _ =>
          if d = '.' || d = 'e' || d = 'E' then
            .error "non-integer number outside model scope"
          else .ok (if neg then -(n : Int) else (n : Int), rest)
        | [] => .ok (if neg then -(n : Int) else (n : Int), [])
      | none => .error "invalid number"
    else .error "invalid character looking for number"
  | [] => .error "unexpected end of JSON input"

mutual

/-- Parse one JSON value. -/
def parseV : Nat → List Char → Except String (Jval × List Char)
  | 0, _ => .error "value nesting exceeds parser fuel"
  | fuel + 1, l =>
    match skipWs l with
    | [] => .error "unexpected end of JSON input"
    | c :: cs =>
      if c = '"' then
        match parseStrBody cs with
        | .error m => .error m
        | .ok (body, rest) => .ok (.jstr (String.mk body), rest)
      else if c = '\x7b' then
        match skipWs cs with
        | '\x7d' :: rest => .ok (.jobj [], rest)
        | l2 => match parseMembers fuel l2 with
          | .error m => .error m
          | .ok (mems, rest) => .ok (.jobj mems, rest)
      else if c = '\x5b' then
        match skipWs cs with
        | '\x5d' :: rest => .ok (.jarr [], rest)
        | l2 => match parseElems fuel l2 with
          | .error m => .error m
          | .ok (elems, rest) => .ok (.jarr elems, rest)
      else if c = 't' then
        match cs with
        | 'r' :: 'u' :: 'e' :: rest => .ok (.jbool true, rest)
        | _ => .error "invalid literal"
      else if c = 'f' then
        match cs with
        | 'a' :: 'l' :: 's' :: 'e' :: rest => .ok (.jbool false, rest)
        | _ => .error "invalid literal"
      else if c = 'n' then
        match cs with
        | 'u' :: 'l' :: 'l' :: rest => .ok (.jnull, rest)
        | _ => .error "invalid literal"
      else
        match parseNum (c :: cs) with
        | .error m => .error m
        | .ok (n, rest) => .ok (.jnum n, rest)

/-- Parse the members of an object after its first non-ws character. -/
def parseMembers : Nat → List Char → Except String (List (String × Jval) × List Char)
  | 0, _ => .error "value nesting exceeds parser fuel"
  | fuel + 1, l =>
    match skipWs l with
    | '"' :: cs =>
      match parseStrBody cs with
      | .error m => .error m
      | .ok (key, rest) =>
        match skipWs rest with
        | ':' :: rest2 =>
          match parseV fuel rest2 with
          | .error m => .error m
          | .ok (v, rest3) =>
            match skipWs rest3 with
            | ',' :: rest4 =>
              match parseMembers fuel rest4 with
              | .error m => .error m
              | .ok (mems, rest5) => .ok ((String.mk key, v) :: mems, rest5)
            | '\x7d' :: rest4 => .ok ([(String.mk key, v)], rest4)
            | _ => .error "invalid character after object member"
        | _ => .error "expected colon after object key"
    | _ => .error "expected string key in object"

/-- Parse the elements of an array after its first non-ws character. -/
def parseElems : Nat → List Char → Except String (List Jval × List Char)
  | 0, _ => .error "value nesting exceeds parser fuel"
  | fuel + 1, l =>
    match parseV fuel l with
    | .error m => .error m
    | .ok (v, rest) =>
      match skipWs rest with
      | ',' :: rest2 =>
        match parseElems fuel rest2 with
        | .error m => .error m
        | .ok (elems, rest3) => .ok (v :: elems, rest3)
      | '\x5d' :: rest2 => .ok ([v], rest2)
      | _ => .error "invalid character after array element"

end

/-- Parse a complete JSON document: one value with only whitespace after. -/
def jparse (s : String) : Except String Jval :=
  match parseV (2 * s.data.length + 2) s.data with
  | .error m => .error m
  | .ok (v, rest) =>
    match skipWs rest with
    | [] => .ok v
    | _ => .error "invalid character after top-level value"

/-- Assessment (analyze.go, current iteration): description plus the two
scored dimensions with their explanations. -/
structure Assessment where
  Description        : String := ""
  MalwareRisk        : Int := 0
  MalwareExplanation : String := ""
  SilentPatch        : Int := 0
  SilentExplanation  : String := ""
deriving DecidableEq, Repr

/-- Result (analyze.go, current iteration): optional echo of the input,
the undocumented changes, and an optional summary. -/
structure Result where
  Input               : Option AnalysisData := none
  UndocumentedChanges : List Assessment := []
  Summary             : Option Assessment := none
deriving DecidableEq, Repr

/-- Decode a JSON value into a string-typed struct field. -/
def decStrField (v : Jval) (cur : String) : Except String String :=
  match v with
  | .jstr s => .ok s
  | .jnull => .ok cur
  | _ => .error "cannot unmarshal value into field of type string"

/-- Decode a JSON value into an int-typed struct field. -/
def decIntField (v : Jval) (cur : Int) : Except String Int :=
  match v with
  | .jnum n => .ok n
  | .jnull => .ok cur
  | _ => .error "cannot unmarshal value into field of type int"

/-- Decode one Assessment from a JSON value, matching keys to the json
tags case-insensitively, ignoring unknown keys, later keys overriding. -/
def decodeAssessment (v : Jval) : Except String Assessment :=
  match v with
  | .jnull => .ok {}
  | .jobj mems =>
    mems.foldlM (fun (a : Assessment) kv =>
      let key := strLower kv.1
      if key = "description" then
        (decStrField kv.2 a.Description).map fun s => { a with Description := s }
      else if key = "malware_risk" then
        (decIntField kv.2 a.MalwareRisk).map fun n => { a with MalwareRisk := n }
      else if key = "malware_explanation" then
        (decStrField kv.2 a.MalwareExplanation).map fun s => { a with MalwareExplanation := s }
      else if key = "silent_patch" then
        (decIntField kv.2 a.SilentPatch).map fun n => { a with SilentPatch := n }
      else if key = "silent_explanation" then
        (decStrField kv.2 a.SilentExplanation).map fun s => { a with SilentExplanation := s }
      else .ok a) {}
  | _ => .error "cannot unmarshal value into Assessment"

/-- Decode one AnalysisData from a JSON value; the Go struct has no json
tags, so keys match the exported field names case-insensitively. -/
def decodeAnalysisData (v : Jval) : Except String AnalysisData :=
  match v with
  | .jnull => .ok {}
  | .jobj mems =>
    mems.foldlM (fun (a : AnalysisData) kv =>
      let key := strLower kv.1
      if key = "source" then
        (decStrField kv.2 a.Source).map fun s => { a with Source := s }
      else if key = "diff" then
        (decStrField kv.2 a.Diff).map fun s => { a with Diff := s }
      else if key = "commitmessages" then
        (decStrField kv.2 a.CommitMessages).map fun s => { a with CommitMessages := s }
      else if key = "changelog" then
        (decStrField kv.2 a.Changelog).map fun s => { a with Changelog := s }
      else if key = "versiona" then
        (decStrField kv.2 a.VersionA).map fun s => { a with VersionA := s }
      else if key = "versionb" then
        (decStrField kv.2 a.VersionB).map fun s => { a with VersionB := s }
      else if key = "programname" then
        (decStrField kv.2 a.ProgramName).map fun s => { a with ProgramName := s }
      else if key = "programdesc" then
        (decStrField kv.2 a.ProgramDesc).map fun s => { a with ProgramDesc := s }
      else .ok a) {}
  | _ => .error "cannot unmarshal value into AnalysisData"

/-- Decode a Result from a parsed JSON value. -/
def decodeResult (v : Jval) : Except String Result :=
  match v with
  | .jnull => .ok {}
  | .jobj mems =>
    mems.foldlM (fun (r : Result) kv =>
      let key := strLower kv.1
      if key = "input" then
        match kv.2 with
        | .jnull => .ok { r with Input := none }
        | w => (decodeAnalysisData w).map fun a => { r with Input := some a }
      else if key = "undocumented_changes" then
        match kv.2 with
        | .jnull => .ok r
        | .jarr elems =>
          (elems.mapM decodeAssessment).map fun l => { r with UndocumentedChanges := l }
        | _ => .error "cannot unmarshal value into field of type []Assessment"
      else if key = "summary" then
        match kv.2 with
        | .jnull => .ok { r with Summary := none }
        | w => (decodeAssessment w).map fun a => { r with Summary := some a }
      else .ok r) {}
  | _ => .error "cannot unmarshal value into Result"

/-- json.Unmarshal of a payload into a Result. -/
def jsonDecodeResult (s : String) : Except String Result :=
  match jparse s with
  | .error m => .error m
  | .ok v => decodeResult v

/-- Errors of parseAIResponse, kept structured: `extractErr s` stands for
the Go error `couldn\x27t extract JSON from response: <s>` (carrying the raw
response) and `decodeErr e t` for `unmarshal: <e>, content: <t>` (carrying
the underlying error and the offending payload). -/
inductive PErr where
  | extractErr : String → PErr
  | decodeErr : String → String → PErr
deriving DecidableEq, Repr

/-- parseAIResponse (analyze.go): extract a payload, special-case the
literal empty array as a zero-findings result, otherwise unmarshal. -/
def parseAIResponse (response : String) : Except PErr Result :=
  let jsonText := extractJSON response
  if jsonText = "" then .error (.extractErr response)
  else if jsonText = "[]" then .ok {}
  else
    match jsonDecodeResult jsonText with
    | .error e => .error (.decodeErr e jsonText)
    | .ok r => .ok r

/-- Prefix test on character lists (shared by the substring test and the
added-lines filter). -/
def isPre : List Char → List Char → Bool
  | [], _ => true
  | _ :: _, [] => false
  | p :: ps, c :: cs => p = c && isPre ps cs

/-- Substring test on character lists. -/
def containsSub (pat : List Char) : List Char → Bool
  | [] => isPre pat []
  | c :: cs => isPre pat (c :: cs) || containsSub pat cs

/-- skipChangePattern (analyze.go): the case-insensitive regex
alternation of literal fragments; MatchString holds exactly when the
lowercased description contains one of the fragments. -/
def skipChangeMatch (s : String) : Bool :=
  let t := (strLower s).data
  containsSub ".gitignore".data t || containsSub "readme".data t ||
  containsSub ".github/".data t || containsSub "ci ".data t ||
  containsSub "documentation".data t || containsSub "comment".data t ||
  containsSub "test file".data t || containsSub "workflow".data t

/-! Model of the current collector file (the Collect/collectFromGit/
collectFromFiles iteration wired to the current main.go).  External
commands and the filesystem are oracles: each call site's outcome is a
field of an environment record, with `runCommand`'s formatted error
strings supplied by the oracle.  Every `os.Remove` / `os.RemoveAll`
executed is logged so that resource-cleanup claims are observable. -/

/-- Config (collector file): data source configuration. -/
structure Config where
  RepoURL       : String := ""
  DiffPath      : String := ""
  ChangelogPath : String := ""
  CommitMsgs    : String := ""
  ProgramName   : String := ""
  ProgramDesc   : String := ""
  VersionA      : String := ""
  VersionB      : String := ""
deriving DecidableEq, Repr

/-- collectFromFiles (collector file): the diff file is mandatory; the
changelog is best-effort, with a sentinel for a missing path and a
distinct sentinel carrying the error for a failed read.  `readF` is the
os.ReadFile oracle. -/
def collectFromFiles (readF : String → Except String String) (cfg : Config) :
    Except String (String × String × String) :=
  if cfg.DiffPath = "" then .error "diff file path not provided"
  else
    match readF cfg.DiffPath with
    | .error e => .error ("failed to read diff file: " ++ e)
    | .ok diff =>
      let commitMsgs := cfg.CommitMsgs
      let changelog :=
        if cfg.ChangelogPath ≠ "" then
          match readF cfg.ChangelogPath with
          | .error e => "Failed to read CHANGELOG: " ++ e
          | .ok c => c
        else "No CHANGELOG provided."
      .ok (diff, commitMsgs, changelog)

/-- strings.Split on the newline separator: the lines of a character
list, with [""] for the empty input. -/
def linesOf : List Char → List (List Char)
  | [] => [[]]
  | c :: cs =>
    if c = '\n' then [] :: linesOf cs
    else
      match linesOf cs with
      | [] => [[c]]
      | l :: ls => (c :: l) :: ls

/-- Join lines back with newlines (strings.Join with separator "\n"). -/
def joinNl : List (List Char) → List Char
  | [] => []
  | [l] => l
  | l :: ls => l ++ '\n' :: joinNl ls

/-- Added-lines filter at the end of getChangelogFromGit: keep the lines
of the diff output that start with "+" but not "+++", stripped of the
leading marker, joined by newlines. -/
def addedLines (out : String) : String :=
  String.mk (joinNl (((linesOf out.data).filter
    (fun l => isPre ['+'] l && !isPre ['+', '+', '+'] l)).map (fun l => l.drop 1)))

/-- Oracle for one run of getChangelogFromGit: the glob search result,
the filepath.Rel outcome, both `git show` outcomes, both temp-file
creations (names) and writes, and the external `diff -u` output as a
function of the two written contents. -/
structure ChangelogEnv where
  globFirst : Option String := none
  relRes    : Except String String := .ok "CHANGELOG.md"
  baseName  : String := "CHANGELOG.md"
  showA     : Except String String := .error "exit status 128"
  showB     : Except String String := .error "exit status 128"
  ctmpA     : Except String String := .ok "/tmp/changelog-a"
  ctmpB     : Except String String := .ok "/tmp/changelog-b"
  writeA    : Except String Unit := .ok ()
  writeB    : Except String Unit := .ok ()
  diffTool  : String → String → String := fun _ _ => ""

/-- getChangelogFromGit (collector file): locate a changelog, fetch it at
both revisions, diff the two snapshots through temp files, and return
only the added lines.  The second component logs every os.Remove
performed (explicit call and LIFO deferred calls), in execution order. -/
def getChangelogFromGit (env : ChangelogEnv) (versionA versionB : String) :
    Except String String × List String :=
  match env.globFirst with
  | none => (.error "no changelog file found", [])
  | some _file =>
    match env.showA with
    | .error e =>
      (.error ("failed to get changelog at version " ++ versionA ++ ": " ++ e), [])
    | .ok contentA =>
      match env.showB with
      | .error e =>
        (.error ("failed to get changelog at version " ++ versionB ++ ": " ++ e), [])
      | .ok contentB =>
        match env.ctmpA with
        | .error e => (.error ("failed to create temp file: " ++ e), [])
        | .ok fileA =>
          match env.ctmpB with
          | .error e =>
            (.error ("failed to create temp file: " ++ e), [fileA, fileA])
          | .ok fileB =>
            match env.writeA with
            | .error e =>
              (.error ("failed to write temp file: " ++ e), [fileB, fileA])
            | .ok _ =>
              match env.writeB with
              | .error e =>
                (.error ("failed to write temp file: " ++ e), [fileB, fileA])
              | .ok _ =>
                let out := env.diffTool contentA contentB
                (.ok (addedLines out), [fileB, fileA])

/-- Oracle for one run of collectFromGit: git lookup, temp directory
creation, and the three git commands, plus the changelog sub-oracle. -/
structure GitEnv where
  gitFound : Bool := true
  gitErr   : String := ""
  mkdirRes : Except String String := .ok "/tmp/ucd-git-1"
  cloneRes : Except String String := .ok ""
  diffRes  : Except String String := .ok ""
  logRes   : Except String String := .ok ""
  chEnv    : ChangelogEnv := {}

/-- Outcome of a collectFromGit run: the collected triple or the error,
the directories removed with os.RemoveAll, and the files removed with
os.Remove. -/
structure GitCollectOut where
  res          : Except String (String × String × String)
  dirRemovals  : List String
  fileRemovals : List String
deriving Repr

/-- collectFromGit (collector file, current iteration).  The deferred
os.RemoveAll(tempDir) present in the earlier iteration is commented out
in this source, so no directory removal is ever logged. -/
def collectFromGit (env : GitEnv) (cfg : Config) : GitCollectOut :=
  if ¬env.gitFound then
    ⟨.error ("git command not found: " ++ env.gitErr), [], []⟩
  else
    match env.mkdirRes with
    | .error e => ⟨.error ("failed to create temp directory: " ++ e), [], []⟩
    | .ok _tempDir =>
      match env.cloneRes with
      | .error e => ⟨.error e, [], []⟩
      | .ok _ =>
        match env.diffRes with
        | .error e => ⟨.error e, [], []⟩
        | .ok diff =>
          match env.logRes with
          | .error e => ⟨.error e, [], []⟩
          | .ok commitMsgs =>
            let r := getChangelogFromGit env.chEnv cfg.VersionA cfg.VersionB
            let changelog := match r.1 with
              | .ok c => c
              | .error _ => ""
            let changelog := if changelog = "" then "No CHANGELOG found." else changelog
            ⟨.ok (diff, commitMsgs, changelog), [], r.2⟩

/-- The canonical fenced wrapping of a payload in a ```json code block. -/
def wrapJson (j : String) : String := "```json\n" ++ j ++ "\n```"

/-- Character list of the opening fence "```json\n". -/
def fencePreL : List Char := ['\x60', '\x60', '\x60', 'j', 's', 'o', 'n', '\x0a']

/-- Character list of the closing fence "\n```". -/
def fenceSufL : List Char := ['\x0a', '\x60', '\x60', '\x60']

/-- A valid JSON object text whose string value contains a close brace
followed by a fence marker: fenced and unfenced parsing of it differ. -/
def j0 : String := "\x7b\"a\":\"b\x7d\x60\x60\x60c\x7bd\x7d\x60\x60\x60e\"\x7d"

/-- Checks that a string is the JSON text of an object. -/
def isObjText (s : String) : Bool :=
  match jparse s with
  | .ok (.jobj _) => true
  | _ => false

/-- A 2000001-byte ASCII string, exceeding the prompt budget on its own. -/
def bigStr : String := String.mk (List.replicate 2000001 'a')

end Ucd

namespace UcdV2

/-! Model of the earlier Collector/Service iteration: pkg/ucd/types.go
(Change, Result, Rating as an int-valued enumeration), pkg/ucd/changes.go
(the option-configured Collector with Cleanup) and the result formatter
file (SortByRating, Format). -/

/-- Change (types.go): one undocumented change; Rating is the int-based
enumeration RatingUnknown=0 .. RatingDefinitelyMalicious=5. -/
structure Change where
  Description : String := ""
  Rating      : Int := 0
  Explanation : String := ""
deriving DecidableEq, Repr

/-- Result (types.go): findings from a diff analysis. -/
structure Result where
  Changes : List Change := []
deriving DecidableEq, Repr

/-- Rating.String (types.go): display glyph of a rating. -/
def ratingGlyph (r : Int) : String :=
  if r = 1 then "🟢"
  else if r = 2 then "🛡️"
  else if r = 3 then "🟠"
  else if r = 4 then "🚨"
  else if r = 5 then "😈"
  else "Unknown"

/-- Postcondition of Go's sort.Slice with the comparator
`Changes[i].Rating > Changes[j].Rating`: the output is some permutation
of the input that is sorted so that no later element has a strictly
greater rating.  sort.Slice is documented as not stable, so the exact
permutation is not determined; this relation admits every output the
library is allowed to produce. -/
def sortSliceSpec (input output : List Change) : Prop :=
  output.Perm input ∧ output.Pairwise (fun x y => y.Rating ≤ x.Rating)

/-- Body text produced by Format for a non-empty sorted change list. -/
def formatLines (l : List Change) : String :=
  "Found " ++ toString l.length ++ " undocumented changes:\n\n" ++
    String.join (l.map (fun c => ratingGlyph c.Rating ++ " " ++ c.Description ++ "\n"))

/-- Format (formatter file) as a relation from the receiver to the pair
(returned text, receiver state after the call): with no changes a fixed
message; otherwise the text renders some sort.Slice output of a copy of
the changes, and the receiver is returned unmutated because the sort
operates on the copy. -/
def FormatRel (r : Result) (out : String × Result) : Prop :=
  (r.Changes = [] ∧ out = ("No undocumented changes found.", r)) ∨
  (r.Changes ≠ [] ∧ ∃ sorted, sortSliceSpec r.Changes sorted ∧
    out = (formatLines sorted, r))

/-- Collector (changes.go): configuration plus the git temp-dir handle;
`cleanup` models the stored closure as the directory it would remove. -/
structure Collector where
  repoURL       : String := ""
  diffPath      : String := ""
  changelogPath : String := ""
  commitMsgs    : String := ""
  versionA      : String := ""
  versionB      : String := ""
  tempDir       : String := ""
  cleanup       : Option String := none
deriving DecidableEq, Repr

/-- Cleanup (changes.go): run the stored cleanup closure if any, then
clear it; returns the updated collector and the directories removed. -/
def Cleanup (a : Collector) : Collector × List String :=
  match a.cleanup with
  | some d => ({ a with cleanup := none }, [d])
  | none => (a, [])

/-- Oracle for one Collect run of the changes.go Collector. -/
structure V2Env where
  gitFound : Bool := true
  gitErr   : String := ""
  mkdirRes : Except String String := .ok "/tmp/ucd-git-1"
  cloneOut : String := ""
  cloneErr : Option String := none
  diffRes  : Except String String := .ok ""
  logRes   : Except String String := .ok ""
  chRes    : Except String String := .error "no changelog file found"
  readF    : String → Except String String := fun _ => .error "file does not exist"

/-- setupRepo (changes.go): check git, create the temp directory, arm the
cleanup closure, then clone.  A clone failure returns an error with the
cleanup still armed. -/
def setupRepo (env : V2Env) (a : Collector) : Except String Unit × Collector :=
  if ¬env.gitFound then
    (.error ("git command not found: " ++ env.gitErr), a)
  else
    match env.mkdirRes with
    | .error e => (.error ("failed to create temp directory: " ++ e), a)
    | .ok tempDir =>
      let a := { a with tempDir := tempDir, cleanup := some tempDir }
      match env.cloneErr with
      | some e => (.error ("git clone failed: " ++ env.cloneOut ++ ": " ++ e), a)
      | none => (.ok (), a)

/-- collectFromGit (changes.go): diff, commit subjects, and the raw
changelog diff (non-fatal, with the sentinel on an empty result). -/
def collectFromGitV2 (env : V2Env) : Except String (String × String × String) :=
  match env.diffRes with
  | .error e => .error ("git diff failed: " ++ e)
  | .ok diff =>
    match env.logRes with
    | .error e => .error ("git log failed: " ++ e)
    | .ok commitMsgs =>
      let changelog := match env.chRes with
        | .ok c => c
        | .error _ => ""
      let changelog := if changelog = "" then "No CHANGELOG found." else changelog
      .ok (diff, commitMsgs, changelog)

/-- collectFromFiles (changes.go): mandatory diff file; the failed
changelog read yields the bare sentinel of this iteration. -/
def collectFromFilesV2 (env : V2Env) (a : Collector) :
    Except String (String × String × String) :=
  if a.diffPath = "" then .error "diff file not found"
  else
    match env.readF a.diffPath with
    | .error e => .error ("failed to read diff file: " ++ e)
    | .ok diff =>
      let commitMsgs := a.commitMsgs
      let changelog :=
        if a.changelogPath ≠ "" then
          match env.readF a.changelogPath with
          | .error _ => "Failed to read CHANGELOG."
          | .ok c => c
        else "No CHANGELOG provided."
      .ok (diff, commitMsgs, changelog)

/-- AnalysisData (types.go): the evidence bundle of this iteration. -/
structure AnalysisData where
  Diff           : String := ""
  CommitMessages : String := ""
  Changelog      : String := ""
  VersionA       : String := ""
  VersionB       : String := ""
deriving DecidableEq, Repr

/-- Collect (changes.go): `defer a.Cleanup()` runs on every exit path, so
the body's final collector state has Cleanup applied before returning.
Returns the result, the final collector state, and the directories
removed by the deferred Cleanup. -/
def Collect (env : V2Env) (a : Collector) :
    Except String AnalysisData × Collector × List String :=
  let body : Except String AnalysisData × Collector :=
    if a.versionA = "" ∨ a.versionB = "" then
      (.error "version identifiers are required", a)
    else if a.repoURL ≠ "" then
      match setupRepo env a with
      | (.error e, a1) => (.error e, a1)
      | (.ok _, a1) =>
        match collectFromGitV2 env with
        | .error e => (.error e, a1)
        | .ok (diff, commitMsgs, changelog) =>
          (.ok { Diff := diff, CommitMessages := commitMsgs, Changelog := changelog,
                 VersionA := a1.versionA, VersionB := a1.versionB }, a1)
    else
      match collectFromFilesV2 env a with
      | .error e => (.error e, a)
      | .ok (diff, commitMsgs, changelog) =>
        (.ok { Diff := diff, CommitMessages := commitMsgs, Changelog := changelog,
               VersionA := a.versionA, VersionB := a.versionB }, a)
  let fin := Cleanup body.2
  (body.1, fin.1, fin.2)

/-- Fixture: a change with rating Suspicious. -/
def chgA : Change := { Description := "first", Rating := 3, Explanation := "ea" }

/-- Fixture: a second, distinct change with the same rating. -/
def chgB : Change := { Description := "second", Rating := 3, Explanation := "eb" }

end UcdV2

namespace Ucd

theorem byteLen_append (s t : String) : byteLen (s ++ t) = byteLen s + byteLen t := by
  simp [byteLen]

theorem byteLen_mk (l : List Char) : byteLen (String.mk l) = (l.map Char.utf8Size).sum := rfl

theorem byteLen_renderPrompt (d : AnalysisData) :
    byteLen (renderPrompt d) =
      basePromptBytes + inputSizes d +
      (if d.ProgramName = "" then 0 else nameWrapBytes) +
      (if d.ProgramDesc = "" then 0 else descWrapBytes) := by
  have h1 : byteLen "\n" = 1 := by decide
  have h0 : byteLen "" = 0 := rfl
  by_cases hn : d.ProgramName = "" <;> by_cases hd : d.ProgramDesc = "" <;>
    simp only [renderPrompt, chunkE, basePromptBytes, inputSizes, nameWrapBytes,
      descWrapBytes, byteLen_append, hn, hd, if_true, if_false, ite_true, ite_false,
      eq_self_iff_true, h1, h0] <;>
    omega

theorem byteLen_render_ge_diff (d : AnalysisData) :
    byteLen d.Diff ≤ byteLen (renderPrompt d) := by
  have h := byteLen_renderPrompt d
  simp [inputSizes] at h
  omega

theorem byteLen_bigStr : byteLen bigStr = 2000001 := by
  have h : byteLen bigStr = (List.replicate 2000001 (Char.utf8Size 'a')).sum := by
    rw [bigStr, byteLen_mk, List.map_replicate]
  have hu : Char.utf8Size 'a' = 1 := rfl
  rw [h, List.sum_replicate, smul_eq_mul, hu, Nat.mul_one]

theorem buildPrompt_ok_eq {d : AnalysisData} {p : String}
    (h : buildPrompt d = .ok p) : p = renderPrompt d := by
  unfold buildPrompt at h
  simp only at h
  split at h
  · exact absurd h (by simp)
  · simpa using h.symm

theorem buildPrompt_ok_of_le {d : AnalysisData}
    (h : byteLen (renderPrompt d) ≤ 2000000) :
    buildPrompt d = .ok (renderPrompt d) := by
  simp [buildPrompt, Nat.not_lt.mpr h]

set_option maxRecDepth 20000 in
theorem basePromptBytes_le : basePromptBytes ≤ 10000 := by decide

theorem renderPrompt_le_of_inputs {d : AnalysisData}
    (h : inputSizes d + nameWrapBytes + descWrapBytes ≤ 1000000) :
    byteLen (renderPrompt d) ≤ 2000000 := by
  rw [byteLen_renderPrompt]
  have hb := basePromptBytes_le
  by_cases hn : d.ProgramName = "" <;> by_cases hd : d.ProgramDesc = "" <;>
    simp [hn, hd] <;> omega

/-- C3: buildPrompt returns the fatal "too much data to analyze" error and
no prompt whenever the rendered prompt exceeds the 2000000-byte budget;
within the budget it returns the full rendered prompt and no error; and
no successful return is ever a truncated prompt. -/
theorem buildPrompt_rejects_never_truncates (d : AnalysisData) :
    (2000000 < byteLen (renderPrompt d) →
      buildPrompt d = .error "too much data to analyze (2000000 length)") ∧
    (byteLen (renderPrompt d) ≤ 2000000 →
      buildPrompt d = .ok (renderPrompt d)) ∧
    (∀ p, buildPrompt d = .ok p → p = renderPrompt d) := by
  refine ⟨fun h => ?_, fun h => ?_, fun _ hp => buildPrompt_ok_eq hp⟩
  · simp [buildPrompt, h]
  · simp [buildPrompt, Nat.not_lt.mpr h]

/-- Witness for C3: a concrete within-budget input returns its full
render; a concrete input whose diff alone is 2000001 bytes is rejected
with the fatal error. -/
theorem buildPrompt_rejects_never_truncates_witness :
    buildPrompt {} = .ok (renderPrompt {}) ∧
    buildPrompt { Diff := bigStr } =
      .error "too much data to analyze (2000000 length)" := by
  constructor
  · exact (buildPrompt_rejects_never_truncates {}).2.1
      (renderPrompt_le_of_inputs (by decide))
  · refine (buildPrompt_rejects_never_truncates { Diff := bigStr }).1 ?_
    have h := byteLen_render_ge_diff { Diff := bigStr }
    have hb : byteLen ({ Diff := bigStr } : AnalysisData).Diff = 2000001 := byteLen_bigStr
    omega

/-- C1 counterexample: the response "\x7b\x7d" decodes to a Result with an
empty changes sequence although the extracted payload is not the literal
empty array, refuting the only-if direction of the claimed equivalence. -/
theorem parse_empty_object_not_array_sentinel :
    extractJSON "\x7b\x7d" = "\x7b\x7d" ∧
    parseAIResponse "\x7b\x7d" =
      .ok { Input := none, UndocumentedChanges := [], Summary := none } := by
  constructor
  · rfl
  · rfl

/-- C1 (amended): a payload equal to the literal empty array always
yields the zero-findings Result and no error; conversely, a successful
parse with an empty changes sequence comes either from the empty-array
sentinel or from a decoded object whose undocumented_changes array is
empty or absent. -/
theorem parseAIResponse_empty_array_zero_findings :
    (∀ s : String, extractJSON s = "[]" →
      parseAIResponse s = .ok { Input := none, UndocumentedChanges := [], Summary := none }) ∧
    (∀ (s : String) (r : Result), parseAIResponse s = .ok r →
      r.UndocumentedChanges = [] →
      extractJSON s = "[]" ∨ jsonDecodeResult (extractJSON s) = .ok r) := by
  constructor
  · intro s h
    simp [parseAIResponse, h]
  · intro s r h _hemp
    unfold parseAIResponse at h
    by_cases h1 : extractJSON s = ""
    · simp [h1] at h
    · by_cases h2 : extractJSON s = "[]"
      · exact Or.inl h2
      · right
        simp only [h1, h2, if_false, ite_false] at h
        cases hd : jsonDecodeResult (extractJSON s) with
        | error e => rw [hd] at h; exact absurd h (by simp)
        | ok r2 =>
          rw [hd] at h
          simpa using h

/-- Witness for C1: the fenced empty array yields the zero-findings
result, and the empty-object response satisfies the amended disjunction. -/
theorem parseAIResponse_empty_array_zero_findings_witness :
    parseAIResponse "```json\n[]\n```" =
      .ok { Input := none, UndocumentedChanges := [], Summary := none } ∧
    (extractJSON "\x7b\x7d" = "[]" ∨
      jsonDecodeResult (extractJSON "\x7b\x7d") =
        .ok { Input := none, UndocumentedChanges := [], Summary := none }) := by
  constructor
  · exact parseAIResponse_empty_array_zero_findings.1 "```json\n[]\n```" rfl
  · exact parseAIResponse_empty_array_zero_findings.2 "\x7b\x7d"
      { Input := none, UndocumentedChanges := [], Summary := none } rfl rfl

/-- C2: a successfully decoded response whose single assessment
description names ".github/workflows/build.yml" is returned with that
assessment still present, even though skipChangePattern matches the
description; the declared noise filter is never applied by
parseAIResponse. -/
theorem skip_pattern_match_not_dropped :
    parseAIResponse
        "\x7b\"undocumented_changes\":[\x7b\"description\":\"Update .github/workflows/build.yml\"\x7d]\x7d" =
      .ok { Input := none,
            UndocumentedChanges := [{ Description := "Update .github/workflows/build.yml",
                                      MalwareRisk := 0, MalwareExplanation := "",
                                      SilentPatch := 0, SilentExplanation := "" }],
            Summary := none } ∧
    skipChangeMatch "Update .github/workflows/build.yml" = true := by
  constructor
  · decide
  · decide

/-- C4: the current git-mode collector never removes the temporary clone
directory on any exit path (the deferred removal is commented out in the
source); in particular a fully successful run returns collected data with
no directory removal performed. -/
theorem collectFromGit_leaks_temp_dir :
    (∀ (env : GitEnv) (cfg : Config), (collectFromGit env cfg).dirRemovals = []) ∧
    (collectFromGit
        { diffRes := .ok "diff --git a/main.go b/main.go\n",
          logRes := .ok "fix parser bug" }
        { RepoURL := "https://example.com/repo.git", VersionA := "v1", VersionB := "v2" }).res =
      .ok ("diff --git a/main.go b/main.go\n", "fix parser bug", "No CHANGELOG found.") := by
  constructor
  · intro env cfg
    unfold collectFromGit
    split
    · rfl
    · split
      · rfl
      · split
        · rfl
        · split
          · rfl
          · split
            · rfl
            · rfl
  · rfl

/-- C7: the changelog differ returns the empty string when the changelog
content is identical at the two revisions (the external diff produces no
output), and returns exactly the added line with its "+" marker stripped
when the diff output's only kept line is "+- fixed bug X". -/
theorem changelog_added_lines_only
    (env : ChangelogEnv) (vA vB f cA cB fA fB : String)
    (hg : env.globFirst = some f)
    (ha : env.showA = .ok cA) (hb : env.showB = .ok cB)
    (hta : env.ctmpA = .ok fA) (htb : env.ctmpB = .ok fB)
    (hwa : env.writeA = .ok ()) (hwb : env.writeB = .ok ()) :
    (cA = cB → env.diffTool cA cB = "" →
      (getChangelogFromGit env vA vB).1 = .ok "") ∧
    ((linesOf (env.diffTool cA cB).data).filter
        (fun l => isPre ['+'] l && !isPre ['+', '+', '+'] l) = ["+- fixed bug X".data] →
      (getChangelogFromGit env vA vB).1 = .ok "- fixed bug X") := by
  constructor
  · intro _ hdt
    simp only [getChangelogFromGit, hg, ha, hb, hta, htb, hwa, hwb, hdt]
    rfl
  · intro hf
    simp only [getChangelogFromGit, hg, ha, hb, hta, htb, hwa, hwb, addedLines, hf]
    rfl

/-- Witness for C7: concrete environments for the unchanged-changelog run
and for the run with exactly the one added line. -/
theorem changelog_added_lines_only_witness :
    (getChangelogFromGit
        { globFirst := some "CHANGELOG.md", showA := .ok "# log\n", showB := .ok "# log\n",
          diffTool := fun a b => if a = b then "" else "x" } "v0" "v1").1 = .ok "" ∧
    (getChangelogFromGit
        { globFirst := some "CHANGELOG.md", showA := .ok "# log\n",
          showB := .ok "# log\n- fixed bug X\n",
          diffTool := fun _ _ =>
            "--- v0\n+++ v1\n@@ -1,1 +1,2 @@\n # log\n+- fixed bug X" } "v0" "v1").1 =
      .ok "- fixed bug X" := by
  constructor
  · exact (changelog_added_lines_only _ "v0" "v1" "CHANGELOG.md" "# log\n" "# log\n"
      "/tmp/changelog-a" "/tmp/changelog-b" rfl rfl rfl rfl rfl rfl rfl).1 rfl (by decide)
  · exact (changelog_added_lines_only _ "v0" "v1" "CHANGELOG.md" "# log\n"
      "# log\n- fixed bug X\n" "/tmp/changelog-a" "/tmp/changelog-b"
      rfl rfl rfl rfl rfl rfl rfl).2 (by decide)

/-- C9: in file mode with a readable diff file, a missing changelog path
yields the sentinel "No CHANGELOG provided.", and a changelog path whose
read fails yields the distinct sentinel carrying the read error while
collection still succeeds. -/
theorem collectFromFiles_changelog_best_effort
    (readF : String → Except String String) (cfg : Config) (diff : String)
    (hdp : cfg.DiffPath ≠ "")
    (hdr : readF cfg.DiffPath = .ok diff) :
    (cfg.ChangelogPath = "" →
      collectFromFiles readF cfg = .ok (diff, cfg.CommitMsgs, "No CHANGELOG provided.")) ∧
    (∀ e, readF cfg.ChangelogPath = .error e → cfg.ChangelogPath ≠ "" →
      collectFromFiles readF cfg =
        .ok (diff, cfg.CommitMsgs, "Failed to read CHANGELOG: " ++ e)) := by
  constructor
  · intro hcl
    simp [collectFromFiles, hdp, hdr, hcl]
  · intro e hre hcl
    simp [collectFromFiles, hdp, hdr, hre, hcl]

/-- Witness for C9: a concrete read oracle exercising both the missing
path and the failing read. -/
theorem collectFromFiles_changelog_best_effort_witness :
    collectFromFiles
      (fun p => if p = "changes.diff" then .ok "DIFFDATA" else .error "open missing: no such file")
      { DiffPath := "changes.diff" } =
      .ok ("DIFFDATA", "", "No CHANGELOG provided.") ∧
    collectFromFiles
      (fun p => if p = "changes.diff" then .ok "DIFFDATA" else .error "open missing: no such file")
      { DiffPath := "changes.diff", ChangelogPath := "missing" } =
      .ok ("DIFFDATA", "", "Failed to read CHANGELOG: open missing: no such file") := by
  constructor
  · exact (collectFromFiles_changelog_best_effort _ _ "DIFFDATA" (by decide) rfl).1 rfl
  · exact (collectFromFiles_changelog_best_effort _ _ "DIFFDATA" (by decide) rfl).2
      "open missing: no such file" rfl (by decide)

/-- C8 counterexample: no single fixed boilerplate length B satisfies
"prompt length = sum of input sizes + B" across inputs, because the text
surrounding a ProgramName is emitted only when the name is non-empty:
two inputs differing only in ProgramName shift the length by more than
the name's size. -/
theorem prompt_length_no_fixed_offset :
    ¬ ∃ B : Nat,
      byteLen (renderPrompt { Diff := "DIFF" }) =
        inputSizes { Diff := "DIFF" } + B ∧
      byteLen (renderPrompt { Diff := "DIFF", ProgramName := "ab" }) =
        inputSizes { Diff := "DIFF", ProgramName := "ab" } + B := by
  rintro ⟨B, h1, h2⟩
  rw [byteLen_renderPrompt] at h1 h2
  have c1 : (if (({ Diff := "DIFF" } : AnalysisData)).ProgramName = ""
      then 0 else nameWrapBytes) = 0 := by decide
  have c2 : (if (({ Diff := "DIFF" } : AnalysisData)).ProgramDesc = ""
      then 0 else descWrapBytes) = 0 := by decide
  have c3 : (if (({ Diff := "DIFF", ProgramName := "ab" } : AnalysisData)).ProgramName = ""
      then 0 else nameWrapBytes) = nameWrapBytes := by decide
  have c4 : (if (({ Diff := "DIFF", ProgramName := "ab" } : AnalysisData)).ProgramDesc = ""
      then 0 else descWrapBytes) = 0 := by decide
  rw [c1, c2] at h1
  rw [c3, c4] at h2
  have hs1 : inputSizes { Diff := "DIFF" } = 4 := by decide
  have hs2 : inputSizes { Diff := "DIFF", ProgramName := "ab" } = 6 := by decide
  have hw : 0 < nameWrapBytes := by decide
  omega

/-- C8 (amended): every successful buildPrompt output contains the diff,
commit-message and changelog evidence verbatim as contiguous substrings,
and its byte length is the sum of all substituted input sizes plus the
fixed base boilerplate, plus the fixed name / description wrapping text
exactly when those optional fields are present. -/
theorem buildPrompt_verbatim_evidence (d : AnalysisData) (p : String)
    (h : buildPrompt d = .ok p) :
    (∃ u v, p = u ++ (d.Diff ++ v)) ∧
    (∃ u v, p = u ++ (d.CommitMessages ++ v)) ∧
    (∃ u v, p = u ++ (d.Changelog ++ v)) ∧
    byteLen p = basePromptBytes + inputSizes d +
      (if d.ProgramName = "" then 0 else nameWrapBytes) +
      (if d.ProgramDesc = "" then 0 else descWrapBytes) := by
  have hp : p = renderPrompt d := buildPrompt_ok_eq h
  subst hp
  refine ⟨?_, ?_, ?_, byteLen_renderPrompt d⟩
  · refine ⟨chunkA ++
      (if d.ProgramName = "" then "" else nameC1 ++ d.ProgramName ++ nameC2) ++
      "\n" ++
      (if d.ProgramDesc = "" then "" else descC1 ++ d.ProgramDesc ++ descC2) ++
      chunkB ++ d.VersionA ++ chunkC ++ d.VersionB ++ chunkD ++ d.Source ++ chunkE,
      chunkF ++ d.CommitMessages ++ chunkG ++ d.Changelog ++ chunkH, ?_⟩
    simp only [renderPrompt, String.append_assoc]
  · refine ⟨chunkA ++
      (if d.ProgramName = "" then "" else nameC1 ++ d.ProgramName ++ nameC2) ++
      "\n" ++
      (if d.ProgramDesc = "" then "" else descC1 ++ d.ProgramDesc ++ descC2) ++
      chunkB ++ d.VersionA ++ chunkC ++ d.VersionB ++ chunkD ++ d.Source ++ chunkE ++
      d.Diff ++ chunkF,
      chunkG ++ d.Changelog ++ chunkH, ?_⟩
    simp only [renderPrompt, String.append_assoc]
  · refine ⟨chunkA ++
      (if d.ProgramName = "" then "" else nameC1 ++ d.ProgramName ++ nameC2) ++
      "\n" ++
      (if d.ProgramDesc = "" then "" else descC1 ++ d.ProgramDesc ++ descC2) ++
      chunkB ++ d.VersionA ++ chunkC ++ d.VersionB ++ chunkD ++ d.Source ++ chunkE ++
      d.Diff ++ chunkF ++ d.CommitMessages ++ chunkG,
      chunkH, ?_⟩
    simp only [renderPrompt, String.append_assoc]

set_option maxRecDepth 20000 in
/-- Witness for C8: a concrete successful input with all three evidence
strings present. -/
theorem buildPrompt_verbatim_evidence_witness :
    (∃ u v, renderPrompt { Diff := "D1", CommitMessages := "C1", Changelog := "L1" } =
      u ++ (("D1" : String) ++ v)) ∧
    (∃ u v, renderPrompt { Diff := "D1", CommitMessages := "C1", Changelog := "L1" } =
      u ++ (("C1" : String) ++ v)) ∧
    (∃ u v, renderPrompt { Diff := "D1", CommitMessages := "C1", Changelog := "L1" } =
      u ++ (("L1" : String) ++ v)) ∧
    byteLen (renderPrompt { Diff := "D1", CommitMessages := "C1", Changelog := "L1" }) =
      basePromptBytes + inputSizes { Diff := "D1", CommitMessages := "C1", Changelog := "L1" } := by
  have h := buildPrompt_verbatim_evidence
    { Diff := "D1", CommitMessages := "C1", Changelog := "L1" } _
    (buildPrompt_ok_of_le (renderPrompt_le_of_inputs (by decide)))
  refine ⟨h.1, h.2.1, h.2.2.1, ?_⟩
  have h4 := h.2.2.2
  rw [if_pos rfl, if_pos rfl] at h4
  omega

end Ucd

namespace UcdV2

set_option maxRecDepth 8000 in
/-- C6 counterexample: on a result with two distinct equal-rating changes,
Format's sort (Go's sort.Slice, which guarantees no stability) admits the
swapped rendering, which differs from the stable rendering; so the sort is
not stable for equal severities. -/
theorem format_admits_unstable_order :
    FormatRel { Changes := [chgA, chgB] }
      (formatLines [chgB, chgA], { Changes := [chgA, chgB] }) ∧
    formatLines [chgB, chgA] ≠ formatLines [chgA, chgB] := by
  constructor
  · right
    refine ⟨by simp, [chgB, chgA], ⟨?_, ?_⟩, rfl⟩
    · exact List.Perm.swap chgA chgB []
    · decide
  · decide

/-- C6 (amended): every text Format may return renders some permutation
of the changes ordered from most to least severe rating, the empty case
yields the fixed message, and the caller's Result is returned with its
original order unchanged; the order among equal ratings is not specified
by sort.Slice. -/
theorem format_sorted_copy_unmutated (r : Result) (text : String) (rOut : Result)
    (h : FormatRel r (text, rOut)) :
    rOut = r ∧
    (r.Changes = [] → text = "No undocumented changes found.") ∧
    (r.Changes ≠ [] → ∃ sorted, sorted.Perm r.Changes ∧
      sorted.Pairwise (fun x y => y.Rating ≤ x.Rating) ∧ text = formatLines sorted) := by
  rcases h with ⟨he, hout⟩ | ⟨hne, sorted, ⟨hperm, hsort⟩, hout⟩
  · have h1 : text = "No undocumented changes found." := congrArg Prod.fst hout
    have h2 : rOut = r := congrArg Prod.snd hout
    exact ⟨h2, fun _ => h1, fun hne => absurd he hne⟩
  · have h1 : text = formatLines sorted := congrArg Prod.fst hout
    have h2 : rOut = r := congrArg Prod.snd hout
    exact ⟨h2, fun he => absurd he hne, fun _ => ⟨sorted, hperm, hsort, h1⟩⟩

/-- Witness for C6: the amended theorem applied to a concrete admitted
execution of Format. -/
theorem format_sorted_copy_unmutated_witness :
    ({ Changes := [chgA, chgB] } : Result) = { Changes := [chgA, chgB] } ∧
    (({ Changes := [chgA, chgB] } : Result).Changes = [] →
      formatLines [chgB, chgA] = "No undocumented changes found.") ∧
    (({ Changes := [chgA, chgB] } : Result).Changes ≠ [] →
      ∃ sorted, sorted.Perm ({ Changes := [chgA, chgB] } : Result).Changes ∧
        sorted.Pairwise (fun x y => y.Rating ≤ x.Rating) ∧
        formatLines [chgB, chgA] = formatLines sorted) := by
  exact format_sorted_copy_unmutated { Changes := [chgA, chgB] }
    (formatLines [chgB, chgA]) { Changes := [chgA, chgB] }
    (Or.inr ⟨by simp, [chgB, chgA],
      ⟨List.Perm.swap chgA chgB [], by decide⟩, rfl⟩)

/-- C10: after a Collect run the stored cleanup handle is cleared, a
further Cleanup call is a no-op performing no removal, the deferred
cleanup removes at most one directory, and Cleanup is idempotent on any
collector. -/
theorem collect_cleanup_exactly_once (env : V2Env) (a : Collector) :
    ((Collect env a).2.1).cleanup = none ∧
    Cleanup (Collect env a).2.1 = ((Collect env a).2.1, []) ∧
    (Collect env a).2.2.length ≤ 1 ∧
    (∀ c : Collector, Cleanup (Cleanup c).1 = ((Cleanup c).1, [])) := by
  have hclear : ∀ c : Collector, ((Cleanup c).1).cleanup = none := by
    intro c
    unfold Cleanup
    cases hx : c.cleanup <;> simp [hx]
  have hnoop : ∀ c : Collector, c.cleanup = none → Cleanup c = (c, []) := by
    intro c hc
    unfold Cleanup
    rw [hc]
  have hlen : ∀ c : Collector, ((Cleanup c).2).length ≤ 1 := by
    intro c
    unfold Cleanup
    cases hx : c.cleanup <;> simp [hx]
  refine ⟨?_, ?_, ?_, fun c => hnoop _ (hclear c)⟩
  · show ((Cleanup _).1).cleanup = none
    exact hclear _
  · exact hnoop _ (hclear _)
  · exact hlen _

end UcdV2

namespace Ucd

/-! Lemmas about the fenced-block search, leading to the C5 analysis:
for a backtick-free object payload the fenced wrapping and the bare
payload extract identically, and a response with no brace or bracket
fails extraction. -/

theorem tailOk_false_head {x : Char} (xs : List Char)
    (h1 : x ≠ '\x60') (h2 : x ≠ '\x0a') : tailOk (x :: xs) = false := by
  simp [tailOk, h1, h2]

theorem lazyScan_end (rest mid : List Char) :
    ∀ acc, (∀ c ∈ mid, c ≠ '\x0a' ∧ c ≠ '\x60') →
    lazyScan '\x7d' (mid ++ '\x7d' :: '\x0a' :: '\x60' :: '\x60' :: '\x60' :: rest) acc =
      some (acc.reverse ++ mid) := by
  induction mid with
  | nil =>
    intro acc _
    simp [lazyScan, tailOk]
  | cons c mid' ih =>
    intro acc h
    have hc := h c (List.mem_cons_self c mid')
    have hto : tailOk (mid' ++ '\x7d' :: '\x0a' :: '\x60' :: '\x60' :: '\x60' :: rest) = false := by
      cases mid' with
      | nil => exact tailOk_false_head _ (by decide) (by decide)
      | cons d md =>
        have hd := h d (by simp)
        exact tailOk_false_head _ hd.2 hd.1
    have hrec := ih (c :: acc) (fun d hd => h d (List.mem_cons_of_mem c hd))
    simp only [List.cons_append, lazyScan]
    simp [hto, hc.1, hrec]

theorem lazyScan_none_of_nl (rest : List Char) (xs : List Char) :
    ∀ acc, '\x0a' ∈ xs → (∀ c ∈ xs, c ≠ '\x60') →
    lazyScan '\x7d' (xs ++ '\x0a' :: '\x60' :: '\x60' :: '\x60' :: rest) acc = none := by
  induction xs with
  | nil => intro acc h; exact absurd h (by simp)
  | cons c xs' ih =>
    intro acc hnl h
    by_cases hcnl : c = '\x0a'
    · subst hcnl
      simp [lazyScan, tailOk]
    · have hnl' : '\x0a' ∈ xs' := by
        rcases List.mem_cons.mp hnl with h1 | h1
        · exact absurd h1.symm hcnl
        · exact h1
      have hto : tailOk (xs' ++ '\x0a' :: '\x60' :: '\x60' :: '\x60' :: rest) = false := by
        cases xs' with
        | nil => exact absurd hnl' (by simp)
        | cons d xs'' =>
          have hd : d ≠ '\x60' := h d (by simp)
          by_cases hdn : d = '\x0a'
          · subst hdn
            cases xs'' with
            | nil => simp [tailOk]
            | cons e xs3 =>
              have he : e ≠ '\x60' := h e (by simp)
              simp [tailOk, he]
          · exact tailOk_false_head _ hd hdn
      have hrec := ih (c :: acc) hnl' (fun d hd => h d (List.mem_cons_of_mem c hd))
      simp only [List.cons_append, lazyScan]
      simp [hto, hcnl, hrec]

theorem matchAt_none_head {c : Char} (l : List Char) (hc : c ≠ '\x60') :
    matchAt (c :: l) = none := by
  simp [matchAt, hc]

theorem scanFenced_append_clean (xs rest : List Char)
    (h : ∀ c ∈ xs, c ≠ '\x60') :
    scanFenced (xs ++ rest) = scanFenced rest := by
  induction xs with
  | nil => rfl
  | cons c xs' ih =>
    have hc := h c (List.mem_cons_self c xs')
    have hrec := ih (fun d hd => h d (List.mem_cons_of_mem c hd))
    simp only [List.cons_append, scanFenced, matchAt_none_head _ hc, Option.orElse]
    exact hrec

theorem afterOpen_append_clean (xs rest : List Char)
    (h : ∀ c ∈ xs, c ≠ '\x7b') :
    afterOpen (xs ++ rest) = afterOpen rest := by
  induction xs with
  | nil => rfl
  | cons c xs' ih =>
    have hc := h c (List.mem_cons_self c xs')
    have hrec := ih (fun d hd => h d (List.mem_cons_of_mem c hd))
    simp only [List.cons_append, afterOpen, hc, ite_false, if_neg]
    exact hrec

theorem dropToCloseRev_append_clean (xs rest : List Char)
    (h : ∀ c ∈ xs, c ≠ '\x7d') :
    dropToCloseRev (xs ++ rest) = dropToCloseRev rest := by
  induction xs with
  | nil => rfl
  | cons c xs' ih =>
    have hc := h c (List.mem_cons_self c xs')
    have hrec := ih (fun d hd => h d (List.mem_cons_of_mem c hd))
    simp only [List.cons_append, dropToCloseRev, hc, ite_false, if_neg]
    exact hrec

theorem r2Extract_shape (mid : List Char) (pre : List Char)
    (hpre : ∀ c ∈ pre, c ≠ '\x7b') (suf : List Char)
    (hsuf : ∀ c ∈ suf, c ≠ '\x7d') :
    r2Extract (pre ++ ('\x7b' :: (mid ++ '\x7d' :: suf))) =
      some ('\x7b' :: (mid ++ ['\x7d'])) := by
  unfold r2Extract
  rw [afterOpen_append_clean pre _ hpre]
  have h1 : afterOpen ('\x7b' :: (mid ++ '\x7d' :: suf)) =
      some (mid ++ '\x7d' :: suf) := by
    simp [afterOpen]
  rw [h1]
  simp only [Option.bind_eq_bind, Option.some_bind]
  have h2 : (mid ++ '\x7d' :: suf).reverse = suf.reverse ++ ('\x7d' :: mid.reverse) := by
    simp
  rw [h2, dropToCloseRev_append_clean suf.reverse _
    (fun c hc => hsuf c (List.mem_reverse.mp hc))]
  simp [dropToCloseRev]

end Ucd

namespace Ucd

theorem scanFenced_cons_none {c : Char} {l : List Char} (h : matchAt (c :: l) = none) :
    scanFenced (c :: l) = scanFenced l := by
  simp [scanFenced, h, Option.orElse]

theorem extractJSONL_wrap_single (mid : List Char)
    (h : ∀ c ∈ mid, c ≠ '\x0a' ∧ c ≠ '\x60') :
    extractJSONL (fencePreL ++ ('\x7b' :: (mid ++ '\x7d' :: fenceSufL))) =
      some ('\x7b' :: (mid ++ ['\x7d'])) := by
  have hscan : lazyScan '\x7d'
      (mid ++ '\x7d' :: '\x0a' :: '\x60' :: '\x60' :: '\x60' :: ([] : List Char)) [] =
      some mid := by
    have := lazyScan_end [] mid [] h
    simpa using this
  have hgroup : groupMatch ('\x7b' :: (mid ++ '\x7d' :: fenceSufL)) =
      some ('\x7b' :: (mid ++ ['\x7d'])) := by
    simp only [fenceSufL]
    simp [groupMatch, hscan]
  have hnl : nlBody ('\x0a' :: '\x7b' :: (mid ++ '\x7d' :: fenceSufL)) =
      some ('\x7b' :: (mid ++ ['\x7d'])) := by
    simp [nlBody, hgroup, Option.orElse]
  have hfb : fenceBody ('j' :: 's' :: 'o' :: 'n' :: '\x0a' :: '\x7b' :: (mid ++ '\x7d' :: fenceSufL)) =
      some ('\x7b' :: (mid ++ ['\x7d'])) := by
    simp [fenceBody, hnl, Option.orElse]
  have hma : matchAt (fencePreL ++ ('\x7b' :: (mid ++ '\x7d' :: fenceSufL))) =
      some ('\x7b' :: (mid ++ ['\x7d'])) := by
    simp only [fencePreL, List.cons_append, List.nil_append]
    simp [matchAt, hfb]
  cases hfull : fencePreL ++ ('\x7b' :: (mid ++ '\x7d' :: fenceSufL)) with
  | nil => exact absurd hfull (by simp [fencePreL])
  | cons c cs =>
    rw [hfull] at hma
    simp [extractJSONL, scanFenced, hma, Option.orElse]

end Ucd

namespace Ucd

theorem extractJSONL_wrap_multi (mid : List Char) (hnl : '\x0a' ∈ mid)
    (h : ∀ c ∈ ('\x7b' :: (mid ++ ['\x7d'])), c ≠ '\x60') :
    extractJSONL (fencePreL ++ ('\x7b' :: (mid ++ '\x7d' :: fenceSufL))) =
      some ('\x7b' :: (mid ++ ['\x7d'])) := by
  have hmidbt : ∀ c ∈ mid, c ≠ '\x60' := fun c hc =>
    h c (List.mem_cons_of_mem _ (List.mem_append_left _ hc))
  have hls : lazyScan '\x7d'
      (mid ++ '\x7d' :: '\x0a' :: '\x60' :: '\x60' :: '\x60' :: ([] : List Char)) [] = none := by
    have hmem : '\x0a' ∈ mid ++ ['\x7d'] := List.mem_append_left _ hnl
    have hbt : ∀ c ∈ mid ++ ['\x7d'], c ≠ '\x60' := by
      intro c hc
      rcases List.mem_append.mp hc with h1 | h1
      · exact hmidbt c h1
      · simp at h1; subst h1; decide
    have := lazyScan_none_of_nl [] (mid ++ ['\x7d']) [] hmem hbt
    simpa using this
  have hgm1 : groupMatch ('\x7b' :: (mid ++ '\x7d' :: fenceSufL)) = none := by
    simp only [fenceSufL]
    simp [groupMatch, hls]
  have hgm2 : groupMatch ('\x0a' :: '\x7b' :: (mid ++ '\x7d' :: fenceSufL)) = none := by
    simp [groupMatch]
  have hnlb : nlBody ('\x0a' :: '\x7b' :: (mid ++ '\x7d' :: fenceSufL)) = none := by
    simp [nlBody, hgm1, hgm2, Option.orElse]
  have hnlb2 : nlBody ('j' :: 's' :: 'o' :: 'n' :: '\x0a' :: '\x7b' :: (mid ++ '\x7d' :: fenceSufL)) = none := by
    simp [nlBody, groupMatch]
  have hfb : fenceBody ('j' :: 's' :: 'o' :: 'n' :: '\x0a' :: '\x7b' :: (mid ++ '\x7d' :: fenceSufL)) = none := by
    simp [fenceBody, hnlb, hnlb2, Option.orElse]
  have hm0 : matchAt (fencePreL ++ ('\x7b' :: (mid ++ '\x7d' :: fenceSufL))) = none := by
    simp only [fencePreL, List.cons_append, List.nil_append]
    simp [matchAt, hfb]
  have hm1 : matchAt ('\x60' :: '\x60' :: 'j' :: 's' :: 'o' :: 'n' :: '\x0a' :: '\x7b' :: (mid ++ '\x7d' :: fenceSufL)) = none := by
    simp [matchAt]
  have hm2 : matchAt ('\x60' :: 'j' :: 's' :: 'o' :: 'n' :: '\x0a' :: '\x7b' :: (mid ++ '\x7d' :: fenceSufL)) = none := by
    simp [matchAt]
  have hsuf : scanFenced fenceSufL = none := by decide
  have hrest : scanFenced ('\x7b' :: (mid ++ '\x7d' :: fenceSufL)) = none := by
    have hshape : '\x7b' :: (mid ++ '\x7d' :: fenceSufL) =
        ('\x7b' :: (mid ++ ['\x7d'])) ++ fenceSufL := by
      simp
    rw [hshape, scanFenced_append_clean _ _ h, hsuf]
  have hscan : scanFenced (fencePreL ++ ('\x7b' :: (mid ++ '\x7d' :: fenceSufL))) = none := by
    simp only [fencePreL, List.cons_append, List.nil_append]
    rw [scanFenced_cons_none (by simpa only [fencePreL, List.cons_append, List.nil_append] using hm0)]
    rw [scanFenced_cons_none hm1]
    rw [scanFenced_cons_none hm2]
    rw [scanFenced_cons_none (matchAt_none_head _ (by decide))]
    rw [scanFenced_cons_none (matchAt_none_head _ (by decide))]
    rw [scanFenced_cons_none (matchAt_none_head _ (by decide))]
    rw [scanFenced_cons_none (matchAt_none_head _ (by decide))]
    rw [scanFenced_cons_none (matchAt_none_head _ (by decide))]
    exact hrest
  have hr2 : r2Extract (fencePreL ++ ('\x7b' :: (mid ++ '\x7d' :: fenceSufL))) =
      some ('\x7b' :: (mid ++ ['\x7d'])) := by
    exact r2Extract_shape mid fencePreL (by decide) fenceSufL (by decide)
  simp [extractJSONL, hscan, hr2, Option.orElse]

theorem extractJSONL_bare (mid : List Char)
    (h : ∀ c ∈ ('\x7b' :: (mid ++ ['\x7d'])), c ≠ '\x60') :
    extractJSONL ('\x7b' :: (mid ++ ['\x7d'])) = some ('\x7b' :: (mid ++ ['\x7d'])) := by
  have hs : scanFenced ('\x7b' :: (mid ++ ['\x7d'])) = none := by
    have := scanFenced_append_clean ('\x7b' :: (mid ++ ['\x7d'])) [] h
    simpa using this
  have hr : r2Extract ('\x7b' :: (mid ++ ['\x7d'])) = some ('\x7b' :: (mid ++ ['\x7d'])) := by
    have := r2Extract_shape mid [] (by simp) [] (by simp)
    simpa using this
  simp [extractJSONL, hs, hr, Option.orElse]

end Ucd

namespace Ucd

theorem data_shape_of_head_last {j : String}
    (hh : j.data.head? = some '\x7b') (hl : j.data.getLast? = some '\x7d') :
    ∃ mid, j.data = '\x7b' :: (mid ++ ['\x7d']) := by
  cases hjd : j.data with
  | nil => rw [hjd] at hh; exact absurd hh (by simp)
  | cons c t =>
    rw [hjd] at hh hl
    have hc : c = '\x7b' := by simpa using hh
    subst hc
    rcases List.eq_nil_or_concat t with ht | ⟨L, b, ht⟩
    · subst ht
      simp at hl
    · subst ht
      have hgl : ('\x7b' :: L.concat b).getLast? = some b := by
        rw [List.concat_eq_append, ← List.cons_append]
        exact List.getLast?_concat _
      rw [hgl] at hl
      have hb : b = '\x7d' := by simpa using hl
      subst hb
      exact ⟨L, by simp [List.concat_eq_append]⟩

theorem extractJSON_wrap_and_bare (j : String)
    (hbt : ∀ c ∈ j.data, c ≠ '\x60')
    (hh : j.data.head? = some '\x7b') (hl : j.data.getLast? = some '\x7d') :
    extractJSON (wrapJson j) = j ∧ extractJSON j = j := by
  obtain ⟨mid, hmid⟩ := data_shape_of_head_last hh hl
  have hmk : String.mk ('\x7b' :: (mid ++ ['\x7d'])) = j := by
    rw [← hmid]
  have hall : ∀ c ∈ ('\x7b' :: (mid ++ ['\x7d'])), c ≠ '\x60' := by
    rw [← hmid]; exact hbt
  have hwdata : (wrapJson j).data =
      fencePreL ++ ('\x7b' :: (mid ++ '\x7d' :: fenceSufL)) := by
    have h1 : (wrapJson j).data = "```json\n".data ++ (j.data ++ "\n```".data) := by
      simp [wrapJson, String.data_append]
    rw [h1, hmid]
    have h2 : ("```json\n" : String).data = fencePreL := rfl
    have h3 : ("\n```" : String).data = fenceSufL := rfl
    rw [h2, h3]
    simp
  constructor
  · unfold extractJSON
    rw [hwdata]
    by_cases hnl : '\x0a' ∈ mid
    · rw [extractJSONL_wrap_multi mid hnl hall]
      exact hmk
    · have hmidp : ∀ c ∈ mid, c ≠ '\x0a' ∧ c ≠ '\x60' := by
        intro c hc
        refine ⟨fun he => hnl (he ▸ hc), ?_⟩
        exact hall c (List.mem_cons_of_mem _ (List.mem_append_left _ hc))
      rw [extractJSONL_wrap_single mid hmidp]
      exact hmk
  · unfold extractJSON
    rw [hmid, extractJSONL_bare mid hall]
    exact hmk

theorem groupMatch_none_no_open (r : List Char)
    (h : ∀ c ∈ r, c ≠ '\x7b' ∧ c ≠ '\x5b') : groupMatch r = none := by
  cases r with
  | nil => rfl
  | cons c cs =>
    have hc := h c (List.mem_cons_self c cs)
    simp [groupMatch, hc.1, hc.2]

theorem nlBody_none_no_open (r : List Char)
    (h : ∀ c ∈ r, c ≠ '\x7b' ∧ c ≠ '\x5b') : nlBody r = none := by
  have ht : groupMatch r.tail = none :=
    groupMatch_none_no_open _ (fun c hc => h c (List.mem_of_mem_tail hc))
  have hr : groupMatch r = none := groupMatch_none_no_open _ h
  simp [nlBody, ht, hr, Option.orElse]

theorem fenceBody_none_no_open (r : List Char)
    (h : ∀ c ∈ r, c ≠ '\x7b' ∧ c ≠ '\x5b') : fenceBody r = none := by
  have h4 : nlBody (r.drop 4) = none :=
    nlBody_none_no_open _ (fun c hc => h c (List.mem_of_mem_drop hc))
  have h0 : nlBody r = none := nlBody_none_no_open _ h
  simp [fenceBody, h4, h0, Option.orElse]

theorem matchAt_none_no_open (l : List Char)
    (h : ∀ c ∈ l, c ≠ '\x7b' ∧ c ≠ '\x5b') : matchAt l = none := by
  have h3 : fenceBody (l.drop 3) = none :=
    fenceBody_none_no_open _ (fun c hc => h c (List.mem_of_mem_drop hc))
  simp [matchAt, h3]

theorem scanFenced_none_no_open (l : List Char)
    (h : ∀ c ∈ l, c ≠ '\x7b' ∧ c ≠ '\x5b') : scanFenced l = none := by
  induction l with
  | nil => rfl
  | cons c cs ih =>
    rw [scanFenced_cons_none (matchAt_none_no_open _ h)]
    exact ih (fun d hd => h d (List.mem_cons_of_mem c hd))

theorem afterOpen_none_no_open (l : List Char)
    (h : ∀ c ∈ l, c ≠ '\x7b' ∧ c ≠ '\x5b') : afterOpen l = none := by
  induction l with
  | nil => rfl
  | cons c cs ih =>
    have hc := h c (List.mem_cons_self c cs)
    simp only [afterOpen, hc.1, ite_false, if_neg]
    exact ih (fun d hd => h d (List.mem_cons_of_mem c hd))

theorem extractJSON_empty_no_open (s : String)
    (h : ∀ c ∈ s.data, c ≠ '\x7b' ∧ c ≠ '\x5b') : extractJSON s = "" := by
  have hs := scanFenced_none_no_open s.data h
  have ha := afterOpen_none_no_open s.data h
  simp [extractJSON, extractJSONL, hs, ha, r2Extract, Option.orElse]

end Ucd

namespace Ucd

set_option maxRecDepth 20000 in
/-- C5 counterexample: j0 is a valid JSON object text, yet wrapping it in
a fenced ```json block changes the outcome: bare, it parses to a
successful empty Result; fenced, the lazy code-block capture stops at the
close brace inside its string value, producing a truncated payload and a
JSON decode error. -/
theorem fenced_parse_differs_counterexample :
    isObjText j0 = true ∧
    parseAIResponse j0 =
      .ok { Input := none, UndocumentedChanges := [], Summary := none } ∧
    parseAIResponse (wrapJson j0) =
      .error (.decodeErr "unexpected end of JSON input in string" "\x7b\"a\":\"b\x7d") := by
  refine ⟨by decide, by decide, by decide⟩

/-- C5 (amended): for every backtick-free JSON object text (first
character an open brace, last a close brace), parsing the fenced ```json
wrapping yields the same Result as parsing the bare payload; and every
response containing no open brace and no open bracket fails with the
extraction error carrying the raw response, never a decode error. -/
theorem fenced_and_bare_parse_agree :
    (∀ j : String, (∀ c ∈ j.data, c ≠ '\x60') →
      j.data.head? = some '\x7b' → j.data.getLast? = some '\x7d' →
      parseAIResponse (wrapJson j) = parseAIResponse j) ∧
    (∀ s : String, (∀ c ∈ s.data, c ≠ '\x7b' ∧ c ≠ '\x5b') →
      parseAIResponse s = .error (.extractErr s)) := by
  constructor
  · intro j hbt hh hl
    obtain ⟨hw, hb⟩ := extractJSON_wrap_and_bare j hbt hh hl
    have hne : j ≠ "" := by
      intro he
      rw [he] at hh
      exact absurd hh (by decide)
    simp only [parseAIResponse, hw, hb]
    rw [if_neg hne, if_neg hne]
  · intro s h
    have hx := extractJSON_empty_no_open s h
    simp [parseAIResponse, hx]

/-- Witness for C5: a concrete backtick-free object parses identically
fenced and bare, and a concrete brace-free response yields the extraction
error. -/
theorem fenced_and_bare_parse_agree_witness :
    parseAIResponse (wrapJson "\x7b\"k\":1\x7d") = parseAIResponse "\x7b\"k\":1\x7d" ∧
    parseAIResponse "no json present" = .error (.extractErr "no json present") := by
  constructor
  · exact fenced_and_bare_parse_agree.1 "\x7b\"k\":1\x7d" (by decide) (by decide) (by decide)
  · exact fenced_and_bare_parse_agree.2 "no json present" (by decide)

end Ucd
